import Mathlib

/-!
Shallow embedding of `src/lerobot/common/policies/octo/modeling_octo.py`
together with theorems settling the specification claims about it.

Tensors are modelled as (nested) lists of rationals; floating-point values
that can be `-inf` are modelled by `TVal`.  Fallible tensor operations
(shape mismatches, failed assertions) return `Option`.
-/

set_option autoImplicit false

namespace Octo

/-! ### Attention-mask values

`torch.full(..., -float("inf"))` and `torch.triu` build a matrix whose
entries are either a finite float or `-inf`.  An entry is modelled as either
a finite rational or negative infinity. -/

inductive TVal where
  | val (q : ℚ)
  | negInf
  deriving DecidableEq

/-- `input_seq_len = (n_obs_tokens_per_step + n_readouts_per_step) * n_obs_steps`
(modeling_octo.py line 499). -/
def inputSeqLen (n_obs_tokens_per_step n_obs_steps n_readouts_per_step : Nat) : Nat :=
  (n_obs_tokens_per_step + n_readouts_per_step) * n_obs_steps

/-- Column assignment `mask[:, c] = v`. -/
def setCol (m : Nat → Nat → TVal) (c : Nat) (v : TVal) : Nat → Nat → TVal :=
  fun i j => if j = c then v else m i j

/-- Entry assignment `mask[r, c] = v`. -/
def setEntry (m : Nat → Nat → TVal) (r c : Nat) (v : TVal) : Nat → Nat → TVal :=
  fun i j => if i = r ∧ j = c then v else m i j

/-- Python `range(start, stop, step)` for a positive `step`. -/
def pyRange (start stop step : Nat) : List Nat :=
  List.range' start ((stop - start + step - 1) / step) step

/-- `torch.triu(torch.full((L, L), -inf), diagonal=1)`: `-inf` strictly above
the main diagonal, `0` on and below it. -/
def triuInit : Nat → Nat → TVal :=
  fun i j => if i < j then TVal.negInf else TVal.val 0

/-- Body of the inner loop of `make_causal_mask`
(`mask[:, i + j] = -inf` followed by `mask[i + j, i + j] = 0`). -/
def readoutColUpdate (m : Nat → Nat → TVal) (c : Nat) : Nat → Nat → TVal :=
  setEntry (setCol m c TVal.negInf) c c (TVal.val 0)

/-- `make_causal_mask` (modeling_octo.py lines 472-506), as a function on the
pair of token indices; only indices below `inputSeqLen` are meaningful. -/
def make_causal_mask (n_obs_tokens_per_step n_obs_steps n_readouts_per_step : Nat) :
    Nat → Nat → TVal :=
  let input_seq_len := inputSeqLen n_obs_tokens_per_step n_obs_steps n_readouts_per_step
  (pyRange n_obs_tokens_per_step input_seq_len
      (n_obs_tokens_per_step + n_readouts_per_step)).foldl
    (fun m i =>
      (List.range n_readouts_per_step).foldl (fun m' j => readoutColUpdate m' (i + j)) m)
    triuInit

/-- Column `c` holds a readout token: within step block `s` (of length
`p + r`: `p` observation slots then `r` readout slots) it is one of the last
`r` slots. -/
def isReadoutCol (p n r c : Nat) : Prop :=
  ∃ s < n, ∃ k < r, c = p + (p + r) * s + k

instance (p n r c : Nat) : Decidable (isReadoutCol p n r c) := by
  unfold isReadoutCol; infer_instance

/-! ### Characterisation of `make_causal_mask` -/

theorem foldl_readoutColUpdate (cs : List Nat) (m : Nat → Nat → TVal) (i j : Nat) :
    (cs.foldl readoutColUpdate m) i j =
      if j ∈ cs then (if i = j then TVal.val 0 else TVal.negInf) else m i j := by
  induction cs generalizing m with
  | nil => simp
  | cons c cs ih =>
    simp only [List.foldl_cons, ih, List.mem_cons]
    by_cases hj : j ∈ cs
    · simp [hj]
    · by_cases hc : j = c
      · subst hc
        simp [hj, readoutColUpdate, setEntry, setCol, eq_comm]
      · simp [hj, hc, readoutColUpdate, setEntry, setCol]

theorem foldl_foldl_eq_foldl_bind (l : List Nat) (f : Nat → List Nat)
    (m : Nat → Nat → TVal) :
    l.foldl (fun m' i => (f i).foldl readoutColUpdate m') m =
      (l.flatMap f).foldl readoutColUpdate m := by
  induction l generalizing m with
  | nil => rfl
  | cons a l ih => simp [List.foldl_append, ih]

/-- The loop of `make_causal_mask` runs over exactly `n_obs_steps` block
starts. -/
theorem pyRange_loop (p n r : Nat) (hr : 1 ≤ r) :
    pyRange p (inputSeqLen p n r) (p + r) = List.range' p n (p + r) := by
  unfold pyRange inputSeqLen
  congr 1
  rcases n with _ | n
  · simp only [Nat.mul_zero, Nat.zero_sub, Nat.zero_add]
    exact Nat.div_eq_of_lt (by omega)
  · have h1 : (p + r) * (n + 1) - p + (p + r) - 1 = (p + r) * (n + 1) + (r - 1) := by
      have : p ≤ (p + r) * (n + 1) := by nlinarith
      omega
    rw [h1, Nat.mul_add_div (by omega), Nat.div_eq_of_lt (by omega), Nat.add_zero]

theorem mem_bindCols (p n r c : Nat) (hr : 1 ≤ r) :
    c ∈ (pyRange p (inputSeqLen p n r) (p + r)).flatMap
        (fun i => (List.range r).map (i + ·)) ↔ isReadoutCol p n r c := by
  rw [pyRange_loop p n r hr]
  simp only [List.mem_flatMap, List.mem_map, List.mem_range', List.mem_range]
  constructor
  · rintro ⟨i, ⟨s, hs, rfl⟩, k, hk, rfl⟩
    exact ⟨s, hs, k, hk, rfl⟩
  · rintro ⟨s, hs, k, hk, rfl⟩
    exact ⟨p + (p + r) * s, ⟨s, hs, rfl⟩, k, hk, rfl⟩

theorem make_causal_mask_eq (p n r : Nat) (hr : 1 ≤ r) (i j : Nat) :
    make_causal_mask p n r i j =
      if isReadoutCol p n r j then (if i = j then TVal.val 0 else TVal.negInf)
      else triuInit i j := by
  unfold make_causal_mask
  rw [show (fun (m : Nat → Nat → TVal) i =>
        (List.range r).foldl (fun m' j => readoutColUpdate m' (i + j)) m) =
      (fun m' i => ((List.range r).map (i + ·)).foldl readoutColUpdate m') from ?_]
  · rw [foldl_foldl_eq_foldl_bind, foldl_readoutColUpdate]
    by_cases h : isReadoutCol p n r j
    · rw [if_pos ((mem_bindCols p n r j hr).mpr h), if_pos h]
    · rw [if_neg (fun hm => h ((mem_bindCols p n r j hr).mp hm)), if_neg h]
  · funext m i
    rw [List.foldl_map]

/-- C2: for every triple `(n_obs_tokens_per_step ≥ 1, n_obs_steps ≥ 1,
n_readouts_per_step ≥ 1)`, `make_causal_mask` returns a square matrix of side
`n_obs_steps * (n_obs_tokens_per_step + n_readouts_per_step)` whose entries
are only `0` or `-inf`; every readout-token column is `-inf` except its own
diagonal cell (which is `0`); every observation-token row is `0` exactly on
observation columns `j ≤ i` and `-inf` elsewhere (in particular `-inf` on
every readout column); equal inputs give equal outputs across calls. -/
theorem claim_C2_make_causal_mask (p n r : Nat) (hp : 1 ≤ p) (hn : 1 ≤ n) (hr : 1 ≤ r) :
    (inputSeqLen p n r = n * (p + r)) ∧
    (∀ i j, i < inputSeqLen p n r → j < inputSeqLen p n r →
      make_causal_mask p n r i j = TVal.val 0 ∨ make_causal_mask p n r i j = TVal.negInf) ∧
    (∀ j, j < inputSeqLen p n r → isReadoutCol p n r j →
      ∀ i, i < inputSeqLen p n r →
        make_causal_mask p n r i j = if i = j then TVal.val 0 else TVal.negInf) ∧
    (∀ i, i < inputSeqLen p n r → ¬ isReadoutCol p n r i →
      ∀ j, j < inputSeqLen p n r →
        ((make_causal_mask p n r i j = TVal.val 0 ↔ (¬ isReadoutCol p n r j ∧ j ≤ i)) ∧
         (isReadoutCol p n r j → make_causal_mask p n r i j = TVal.negInf))) ∧
    (∀ p' n' r', p = p' → n = n' → r = r' →
      make_causal_mask p n r = make_causal_mask p' n' r') := by
  refine ⟨by unfold inputSeqLen; ring, ?_, ?_, ?_, ?_⟩
  · intro i j _ _
    rw [make_causal_mask_eq p n r hr]
    unfold triuInit
    split_ifs <;> simp
  · intro j _ hj i _
    rw [make_causal_mask_eq p n r hr, if_pos hj]
  · intro i _ hi j _
    constructor
    · rw [make_causal_mask_eq p n r hr]
      by_cases hj : isReadoutCol p n r j
      · rw [if_pos hj]
        have hij : i ≠ j := fun h => hi (h ▸ hj)
        rw [if_neg hij]
        simp [hj]
      · rw [if_neg hj]
        unfold triuInit
        by_cases hlt : i < j
        · rw [if_pos hlt]
          exact Iff.intro (fun h => nomatch h) (fun h => absurd h.2 (by omega))
        · rw [if_neg hlt]
          exact ⟨fun _ => ⟨hj, by omega⟩, fun _ => rfl⟩
    · intro hj
      rw [make_causal_mask_eq p n r hr, if_pos hj,
        if_neg (fun h : i = j => hi (h ▸ hj))]
  · rintro p' n' r' rfl rfl rfl
    rfl

/-- Witness for C2: at `(38, 2, 1)` (the documented example configuration) the
readout column 38 is `-inf` off-diagonal, `0` on its diagonal cell, and an
observation row is causal. -/
theorem claim_C2_witness :
    make_causal_mask 38 2 1 40 38 = TVal.negInf ∧
    make_causal_mask 38 2 1 38 38 = TVal.val 0 ∧
    make_causal_mask 38 2 1 40 10 = TVal.val 0 := by
  have h := claim_C2_make_causal_mask 38 2 1 (by decide) (by decide) (by decide)
  refine ⟨?_, ?_, ?_⟩
  · have := h.2.2.1 38 (by decide) (by decide) 40 (by decide)
    simpa using this
  · have := h.2.2.1 38 (by decide) (by decide) 38 (by decide)
    simpa using this
  · exact ((h.2.2.2.1 40 (by decide) (by decide) 10 (by decide)).1).2 ⟨by decide, by decide⟩

/-! ### Action-queue controller (`OctoPolicy.reset` / `select_action`) -/

/-- The configuration fields the controller reads. -/
structure CtrlCfg where
  n_obs_steps : Nat
  horizon : Nat
  n_action_steps : Nat
  deriving DecidableEq

/-- `append` on a `collections.deque` with `maxlen` m: the deque is a list, oldest
element first; appending past capacity evicts from the left. -/
def dequeAppend {α : Type} (maxlen : Nat) (q : List α) (x : α) : List α :=
  if q.length < maxlen then q ++ [x] else (q ++ [x]).drop (q.length + 1 - maxlen)

/-- `deque.extend(xs)` = repeated `append`. -/
def dequeExtend {α : Type} (maxlen : Nat) (q : List α) (xs : List α) : List α :=
  xs.foldl (dequeAppend maxlen) q

/-- Modelled from the spec: `populate_queues`
(`lerobot/common/policies/utils.py`, imported at line 45 but not under
`src/`).  Spec §4.6/§3: "push image and state into their respective bounded
buffers (oldest evicted once full)"; "first real observation is replicated
to fill the observation buffers to capacity". -/
def populateQueue {α : Type} (maxlen : Nat) (q : List α) (x : α) : List α :=
  if q.length < maxlen then q ++ List.replicate (maxlen - q.length) x
  else dequeAppend maxlen q x

/-- The three per-policy queues (`OctoPolicy._queues`), oldest first. -/
structure Queues (α β : Type) where
  obsImage : List β
  obsState : List β
  action : List α
  deriving DecidableEq

/-- `OctoPolicy.reset` (lines 98-104): all three queues are emptied. -/
def resetQueues (α β : Type) : Queues α β := ⟨[], [], []⟩

/-- `OctoModel.generate_actions` (lines 279-307): the pipeline
rgb-encoder → transformer → conditional-sample is abstracted as `model`,
mapping the stacked observation history to a `horizon`-length trajectory;
the result is sliced to
`actions[:, n_obs_steps - 1 : n_obs_steps - 1 + n_action_steps]`.
The `assert n_obs_steps == self.config.n_obs_steps` is modelled by `Option`. -/
def generateActions {α β : Type} (cfg : CtrlCfg)
    (model : List β → List β → List α) (obsState obsImage : List β) :
    Option (List α) :=
  if obsState.length = cfg.n_obs_steps then
    some (((model obsState obsImage).drop (cfg.n_obs_steps - 1)).take cfg.n_action_steps)
  else none

/-- `OctoPolicy.select_action` (lines 106-144).  Normalisation and
unnormalisation are external collaborators passed as functions.  Returns the
served action (`none` when an internal assertion or an empty-queue pop
fails), the new queue state, and whether the underlying model was invoked. -/
def selectAction {α β : Type} (cfg : CtrlCfg) (normalize : β → β)
    (unnormalize : List α → List α) (model : List β → List β → List α)
    (s : Queues α β) (obsImage obsState : β) :
    Option α × Queues α β × Bool :=
  let qI := populateQueue cfg.n_obs_steps s.obsImage (normalize obsImage)
  let qS := populateQueue cfg.n_obs_steps s.obsState (normalize obsState)
  if s.action.length = 0 then
    match generateActions cfg model qS qI with
    | none => (none, ⟨qI, qS, s.action⟩, true)
    | some acts =>
      let q := dequeExtend cfg.n_action_steps s.action (unnormalize acts)
      (q.head?, ⟨qI, qS, q.drop 1⟩, true)
  else
    (s.action.head?, ⟨qI, qS, s.action.drop 1⟩, false)

/-- A rollout of the controller from `reset()`: the observation at call `k`
(1-indexed) is `obs k`; returns the queue state and the cumulative number of
model invocations after `k` calls. -/
def runCtrl {α β : Type} (cfg : CtrlCfg) (model : List β → List β → List α)
    (obs : Nat → β) : Nat → Queues α β × Nat
  | 0 => (resetQueues α β, 0)
  | k + 1 =>
    let prev := runCtrl cfg model obs k
    let step := selectAction cfg id id model prev.1 (obs (k + 1)) (obs (k + 1))
    (step.2.1, prev.2 + if step.2.2 then 1 else 0)

/-- The action served at call `k + 1` of a rollout. -/
def servedAt {α β : Type} (cfg : CtrlCfg) (model : List β → List β → List α)
    (obs : Nat → β) (k : Nat) : Option α :=
  (selectAction cfg id id model (runCtrl cfg model obs k).1 (obs (k + 1))
    (obs (k + 1))).1

/-! ### C1: the concrete configuration of the claim -/

def c1Cfg : CtrlCfg := ⟨2, 8, 3⟩

/-- Instrumented model for C1: when the newest buffered observation is from
control step `t`, the horizon-length trajectory's element at index `i` is the
pair `(i, t - (n_obs_steps - 1) + i)`: its trajectory index and the global
control step it is computed for. -/
def c1Model (obsState _obsImage : List Nat) : List (Nat × Nat) :=
  (List.range c1Cfg.horizon).map (fun i => (i, obsState.getLastD 0 - 1 + i))

/-- Closed form of the C1 rollout state after `k` calls. -/
def c1State (k : Nat) : Queues (Nat × Nat) Nat × Nat :=
  (⟨(if k = 0 then [] else [max 1 (k - 1), k]),
    (if k = 0 then [] else [max 1 (k - 1), k]),
    (match k % 3 with
     | 1 => [(2, k + 1), (3, k + 2)]
     | 2 => [(3, k + 1)]
     | _ => [])⟩,
   (k + 2) / 3)

theorem c1_step (k : Nat) :
    selectAction c1Cfg id id c1Model (c1State k).1 (k + 1) (k + 1) =
      (some (1 + k % 3, k + 1), (c1State (k + 1)).1, decide (k % 3 = 0)) := by
  rcases k with _ | j
  · decide
  · have hmax : max 1 (j + 1) = j + 1 := by omega
    have hcases : (j + 1) % 3 = 0 ∨ (j + 1) % 3 = 1 ∨ (j + 1) % 3 = 2 := by omega
    rcases hcases with h | h | h
    · have h' : (j + 2) % 3 = 1 := by omega
      simp only [c1State, h, h', Nat.succ_ne_zero, if_false, Nat.add_sub_cancel, hmax]
      rfl
    · have h' : (j + 2) % 3 = 2 := by omega
      simp only [c1State, h, h', Nat.succ_ne_zero, if_false, Nat.add_sub_cancel, hmax]
      rfl
    · have h' : (j + 2) % 3 = 0 := by omega
      simp only [c1State, h, h', Nat.succ_ne_zero, if_false, Nat.add_sub_cancel, hmax]
      rfl

theorem c1_run_eq (k : Nat) :
    runCtrl c1Cfg c1Model (fun t => t) k = c1State k := by
  induction k with
  | zero => rfl
  | succ k ih =>
    simp only [runCtrl, ih, c1_step]
    refine Prod.ext rfl ?_
    show (c1State k).2 + (if decide (k % 3 = 0) = true then 1 else 0) = (c1State (k + 1)).2
    simp only [c1State, decide_eq_true_eq]
    by_cases h : k % 3 = 0 <;> simp [h] <;> omega

/-- C1: for `n_obs_steps = 2, horizon = 8, n_action_steps = 3`, after
`reset()` the first `select_action` call invokes the model exactly once,
caches exactly `n_action_steps = 3` actions (trajectory indices 1, 2, 3),
and serves the action at trajectory index `n_obs_steps - 1 = 1`; the second
and third calls invoke the model zero further times; the fourth call invokes
it exactly once more.  In general at most one invocation occurs per
`n_action_steps` consumed actions (`3 · invocations(k) ≤ k + 2`, i.e.
invocations after `k` calls ≤ ⌈k/3⌉), and the action served at call `k + 1`
is the trajectory element computed for control step `k + 1` — never for an
earlier step (second pair component = current step). -/
theorem claim_C1_action_queue :
    ((runCtrl c1Cfg c1Model (fun t => t) 1).2 = 1) ∧
    (generateActions c1Cfg c1Model (populateQueue c1Cfg.n_obs_steps [] 1)
        (populateQueue c1Cfg.n_obs_steps [] 1) =
      some [(1, 1), (2, 2), (3, 3)]) ∧
    (servedAt c1Cfg c1Model (fun t => t) 0 = some (c1Cfg.n_obs_steps - 1, 1)) ∧
    ((runCtrl c1Cfg c1Model (fun t => t) 2).2 = 1) ∧
    ((runCtrl c1Cfg c1Model (fun t => t) 3).2 = 1) ∧
    ((runCtrl c1Cfg c1Model (fun t => t) 4).2 = 2) ∧
    (∀ k, c1Cfg.n_action_steps * (runCtrl c1Cfg c1Model (fun t => t) k).2 ≤
      k + (c1Cfg.n_action_steps - 1)) ∧
    (∀ k, servedAt c1Cfg c1Model (fun t => t) k = some (1 + k % 3, k + 1)) := by
  refine ⟨by decide, by decide, by decide, by decide, by decide, by decide, ?_, ?_⟩
  · intro k
    rw [c1_run_eq k]
    show 3 * ((k + 2) / 3) ≤ k + 2
    omega
  · intro k
    show (selectAction c1Cfg id id c1Model
      (runCtrl c1Cfg c1Model (fun t => t) k).1 (k + 1) (k + 1)).1 = _
    rw [c1_run_eq k, c1_step k]

/-! ### Linear layers and MLP building blocks -/

/-- Dot product of two rational vectors. -/
def dot (w x : List ℚ) : ℚ := (List.zipWith (· * ·) w x).sum

/-- `torch.nn.Linear` weights: `weight` has one row per output feature. -/
structure LinearLayer where
  weight : List (List ℚ)
  bias : List ℚ
  deriving DecidableEq

/-- `nn.Linear.forward`: `W x + b`.  Feeding an input whose length differs
from the weight's column count is a runtime shape error. -/
def applyLinear (l : LinearLayer) (x : List ℚ) : Option (List ℚ) :=
  if l.weight.all (fun row => row.length = x.length) ∧ l.bias.length = l.weight.length
  then some (List.zipWith (fun row b => dot row x + b) l.weight l.bias)
  else none

/-- Shape discipline of `nn.Linear(inDim, outDim)`. -/
def LinearLayer.wf (l : LinearLayer) (inDim outDim : Nat) : Prop :=
  l.weight.length = outDim ∧ (∀ row ∈ l.weight, row.length = inDim) ∧
  l.bias.length = outDim

/-- An all-zero `nn.Linear(inDim, outDim)`. -/
def zeroLinear (inDim outDim : Nat) : LinearLayer :=
  ⟨List.replicate outDim (List.replicate inDim 0), List.replicate outDim 0⟩

/-- `OctoMLP` (lines 624-650): a `Sequential` of `Linear` layers with `SiLU`
between consecutive ones.  `SiLU(x) = x·σ(x)` is transcendental, so the
elementwise activation is the abstract parameter `act`. -/
def octoMLPApply (act : ℚ → ℚ) : List LinearLayer → List ℚ → Option (List ℚ)
  | [], x => some x
  | [l], x => applyLinear l x
  | l :: l' :: ls, x => do
    let y ← applyLinear l x
    octoMLPApply act (l' :: ls) (y.map act)

/-- Weights of an `OctoMLPResNetBlock` (lines 653-672): with the default
`dropout = 0` and `use_layer_norm = True` its net is
`LayerNorm, Linear(d, 4d), SiLU, Linear(4d, d)`. -/
structure MLPResNetBlock where
  lin1 : LinearLayer
  lin2 : LinearLayer
  deriving DecidableEq

/-- `OctoMLPResNetBlock.forward` (lines 674-681): `x + net(x)`.  `LayerNorm`
(mean/variance/√) is transcendental and is the abstract shape-preserving
parameter `ln`. -/
def resBlockApply (act : ℚ → ℚ) (ln : List ℚ → List ℚ) (b : MLPResNetBlock)
    (x : List ℚ) : Option (List ℚ) := do
  let y ← applyLinear b.lin1 (ln x)
  let z ← applyLinear b.lin2 (y.map act)
  if x.length = z.length then some (List.zipWith (· + ·) x z) else none

/-- Weights of an `OctoMLPResNet` (lines 684-702): input `Linear`, the
residual blocks, then `SiLU` and the output `Linear`. -/
structure MLPResNet where
  inLin : LinearLayer
  blocks : List MLPResNetBlock
  outLin : LinearLayer
  deriving DecidableEq

/-- `OctoMLPResNet.forward` (lines 704-711). -/
def resNetApply (act : ℚ → ℚ) (ln : List ℚ → List ℚ) (n : MLPResNet)
    (x : List ℚ) : Option (List ℚ) := do
  let y ← applyLinear n.inLin x
  let z ← n.blocks.foldlM (fun s b => resBlockApply act ln b s) y
  applyLinear n.outLin (z.map act)

/-- `OctoFourierFeatures` weights (lines 593-611), learnable branch (the
action head passes only `output_size`, so `learnable = True`):
`kernel : (output_size / 2, 1)`. -/
structure FourierFeatures where
  kernel : List (List ℚ)
  deriving DecidableEq

/-- `OctoFourierFeatures.forward` (lines 613-621) on one batch row
`x = [x0]`: `f = 2π · x @ kernelᵀ`, result `cos f ++ sin f`.  The
transcendental `cos`, `sin` and the float constant `2π` are parameters. -/
def fourierApply (cosF sinF : ℚ → ℚ) (twoPi : ℚ) (fr : FourierFeatures)
    (x0 : ℚ) : Option (List ℚ) :=
  if fr.kernel.all (fun row => row.length = 1)
  then
    let f := fr.kernel.map (fun row => twoPi * x0 * row.headI)
    some (f.map cosF ++ f.map sinF)
  else none

/-! ### Diffusion action head (`OctoDiffusionActionHead`) -/

/-- Weights of `OctoDiffusionActionHead` (lines 714-731). -/
structure DiffusionActionHead where
  fourier : FourierFeatures
  timeEnc : List LinearLayer
  net : MLPResNet
  deriving DecidableEq

/-- `readout_embeds.mean(dim=(1,2))` for one batch element of shape
(steps, readouts, embed): elementwise mean over the step and readout axes.
A tensor mean needs uniform vector lengths and a non-empty axis product. -/
def meanReadouts (embeds : List (List (List ℚ))) : Option (List ℚ) :=
  match embeds.flatten with
  | [] => none
  | v :: vs =>
    if vs.all (fun w => w.length = v.length)
    then
      some (((v :: vs).foldl (fun acc w => List.zipWith (· + ·) acc w)
          (List.replicate v.length 0)).map (fun q => q / ((v :: vs).length : ℚ)))
    else none

/-- `OctoDiffusionActionHead.forward` (lines 733-748) on one batch element:
pool readouts, embed the timestep, refine it, concatenate
`[time_cond, mean_readouts_embed, actions]`, run the MLP-ResNet trunk. -/
def headForwardRow (act cosF sinF : ℚ → ℚ) (ln : List ℚ → List ℚ) (twoPi : ℚ)
    (h : DiffusionActionHead) (embeds : List (List (List ℚ))) (t0 : ℚ)
    (actions : List ℚ) : Option (List ℚ) := do
  let meanEmb ← meanReadouts embeds
  let temb ← fourierApply cosF sinF twoPi h.fourier t0
  let tcond ← octoMLPApply act h.timeEnc temb
  resNetApply act ln h.net (tcond ++ meanEmb ++ actions)

/-- `OctoDiffusionActionHead.forward` over a batch: the tensor operations
require all batch dimensions to agree. -/
def headForward (act cosF sinF : ℚ → ℚ) (ln : List ℚ → List ℚ) (twoPi : ℚ)
    (h : DiffusionActionHead) (embeds : List (List (List (List ℚ))))
    (times : List ℚ) (actions : List (List ℚ)) : Option (List (List ℚ)) :=
  if embeds.length = times.length ∧ times.length = actions.length
  then (List.zip embeds (List.zip times actions)).mapM
    (fun row => headForwardRow act cosF sinF ln twoPi h row.1 row.2.1 row.2.2)
  else none

/-- The configuration fields read by `OctoDiffusionActionHead.__init__`. -/
structure HeadCfg where
  time_dim : Nat
  embed_dim : Nat
  action_dim : Nat
  horizon : Nat
  diffusion_head_dim : Nat
  n_diffusion_head_layers : Nat
  deriving DecidableEq

/-- Shape discipline of `OctoDiffusionActionHead.__init__` (lines 721-731):
Fourier kernel `(time_dim/2, 1)`; time encoder
`OctoMLP(time_dim, (2·time_dim, time_dim))`; trunk
`OctoMLPResNet(time_dim + embed_dim + action_dim, action_dim · horizon,
diffusion_head_dim, n_diffusion_head_layers)`.  Note the trunk's input width
counts `action_dim` once, not `horizon · action_dim`. -/
def headWf (cfg : HeadCfg) (h : DiffusionActionHead) : Prop :=
  (h.fourier.kernel.length = cfg.time_dim / 2 ∧
    ∀ row ∈ h.fourier.kernel, row.length = 1) ∧
  (∃ l1 l2, h.timeEnc = [l1, l2] ∧ l1.wf cfg.time_dim (2 * cfg.time_dim) ∧
    l2.wf (2 * cfg.time_dim) cfg.time_dim) ∧
  (h.net.inLin.wf (cfg.time_dim + cfg.embed_dim + cfg.action_dim)
      cfg.diffusion_head_dim ∧
    h.net.blocks.length = cfg.n_diffusion_head_layers ∧
    (∀ b ∈ h.net.blocks,
      b.lin1.wf cfg.diffusion_head_dim (4 * cfg.diffusion_head_dim) ∧
      b.lin2.wf (4 * cfg.diffusion_head_dim) cfg.diffusion_head_dim) ∧
    h.net.outLin.wf cfg.diffusion_head_dim (cfg.action_dim * cfg.horizon))

theorem zeroLinear_wf (i o : Nat) : (zeroLinear i o).wf i o := by
  refine ⟨by simp [zeroLinear], ?_, by simp [zeroLinear]⟩
  intro row hrow
  rw [List.eq_of_mem_replicate hrow]
  simp

/-- Head built by `OctoDiffusionActionHead.__init__` (all-zero weights) for
`time_dim = 2, embed_dim = 1, action_dim = 1, horizon = 2,
diffusion_head_dim = 1, n_diffusion_head_layers = 0`. -/
def c3Head2 : DiffusionActionHead :=
  ⟨⟨[[0]]⟩, [zeroLinear 2 4, zeroLinear 4 2], ⟨zeroLinear 4 1, [], zeroLinear 1 2⟩⟩

def c3Cfg2 : HeadCfg := ⟨2, 1, 1, 2, 1, 0⟩

/-- Same built head but with `horizon = 1`. -/
def c3Head1 : DiffusionActionHead :=
  ⟨⟨[[0]]⟩, [zeroLinear 2 4, zeroLinear 4 2], ⟨zeroLinear 4 1, [], zeroLinear 1 1⟩⟩

def c3Cfg1 : HeadCfg := ⟨2, 1, 1, 1, 1, 0⟩

/-- C3 (code bug): the claim — and the head's own docstring (lines 733-741) —
says the head maps a flattened noisy trajectory of shape
`(batch, horizon·action_dim)` to a prediction of the same flattened shape.
But `__init__` (line 727) sizes the trunk input as
`time_dim + embed_dim + action_dim`, counting `action_dim` once instead of
`horizon · action_dim`, so for any `horizon ≥ 2` the first trunk `Linear`
rejects the concatenated input and the forward pass fails.  Concretely: a
well-formed head for `horizon = 2` (`c3Head2`, with `headWf` matching
`__init__`) fails on a correctly-shaped input, while the identical
configuration with `horizon = 1` returns the documented shape. -/
theorem claim_C3_head_shape :
    headWf c3Cfg2 c3Head2 ∧
    headForward id id id id 0 c3Head2 [[[[0]]]] [0] [[0, 0]] = none ∧
    headWf c3Cfg1 c3Head1 ∧
    headForward id id id id 0 c3Head1 [[[[0]]]] [0] [[0]] = some [[0]] := by
  refine ⟨⟨⟨by decide, by decide⟩, ⟨zeroLinear 2 4, zeroLinear 4 2, rfl,
      zeroLinear_wf 2 4, zeroLinear_wf 4 2⟩,
      zeroLinear_wf 4 1, by decide, by simp [c3Head2], zeroLinear_wf 1 2⟩,
    by with_unfolding_all rfl,
    ⟨⟨by decide, by decide⟩, ⟨zeroLinear 2 4, zeroLinear 4 2, rfl,
      zeroLinear_wf 2 4, zeroLinear_wf 4 2⟩,
      zeroLinear_wf 4 1, by decide, by simp [c3Head1], zeroLinear_wf 1 1⟩,
    by with_unfolding_all rfl⟩

/-! ### Shape toolbox -/

theorem zipWith_eq_map_zip {α β γ : Type} (f : α → β → γ) :
    ∀ (xs : List α) (ys : List β),
      List.zipWith f xs ys = (List.zip xs ys).map (fun p => f p.1 p.2)
  | [], _ => by simp
  | _ :: _, [] => by simp
  | x :: xs, y :: ys => by
    simp [List.zip_cons_cons, zipWith_eq_map_zip f xs ys]

theorem mapM_length_forall {α β : Type} (f : α → Option β) (P : β → Prop) :
    ∀ (xs : List α), (∀ x ∈ xs, ∃ y, f x = some y ∧ P y) →
      ∃ ys, xs.mapM f = some ys ∧ ys.length = xs.length ∧ ∀ y ∈ ys, P y
  | [], _ => ⟨[], rfl, rfl, by simp⟩
  | x :: xs, h => by
    obtain ⟨y, hy, hPy⟩ := h x (List.mem_cons_self x xs)
    obtain ⟨ys, hys, hlen, hP⟩ :=
      mapM_length_forall f P xs (fun a ha => h a (List.mem_cons_of_mem _ ha))
    refine ⟨y :: ys, ?_, by simp [hlen], ?_⟩
    · rw [List.mapM_cons, hy, hys]
      rfl
    · intro z hz
      rcases List.mem_cons.mp hz with rfl | hz
      exacts [hPy, hP z hz]

/-- Elementwise tensor addition of two vectors; shape mismatch errors. -/
def addVec (x y : List ℚ) : Option (List ℚ) :=
  if x.length = y.length then some (List.zipWith (· + ·) x y) else none

/-- Elementwise addition of two (rows, vec) tensors. -/
def addMat (x y : List (List ℚ)) : Option (List (List ℚ)) :=
  if x.length = y.length
  then (List.zip x y).mapM (fun p => addVec p.1 p.2)
  else none

/-- Elementwise addition of two (steps, rows, vec) tensors. -/
def addTen3 (x y : List (List (List ℚ))) : Option (List (List (List ℚ))) :=
  if x.length = y.length
  then (List.zip x y).mapM (fun p => addMat p.1 p.2)
  else none

theorem addVec_uniform {x y : List ℚ} {k : Nat} (hx : x.length = k)
    (hy : y.length = k) : ∃ z, addVec x y = some z ∧ z.length = k := by
  refine ⟨List.zipWith (· + ·) x y, ?_, ?_⟩
  · unfold addVec
    rw [if_pos (hx.trans hy.symm)]
  · rw [List.length_zipWith, hx, hy, Nat.min_self]

theorem addMat_uniform {x y : List (List ℚ)} {k : Nat}
    (hxy : x.length = y.length) (hx : ∀ v ∈ x, v.length = k)
    (hy : ∀ v ∈ y, v.length = k) :
    ∃ z, addMat x y = some z ∧ z.length = x.length ∧ ∀ v ∈ z, v.length = k := by
  obtain ⟨z, hz, hlen, hP⟩ := mapM_length_forall (fun p => addVec p.1 p.2)
    (fun v => v.length = k) (List.zip x y) (fun p hp =>
      addVec_uniform (hx p.1 (List.of_mem_zip hp).1) (hy p.2 (List.of_mem_zip hp).2))
  refine ⟨z, ?_, ?_, hP⟩
  · unfold addMat
    rw [if_pos hxy, hz]
  · rw [hlen, List.length_zip, hxy, Nat.min_self]

theorem addTen3_uniform {x y : List (List (List ℚ))} {k1 k2 : Nat}
    (hxy : x.length = y.length)
    (hx : ∀ row ∈ x, row.length = k1 ∧ ∀ v ∈ row, v.length = k2)
    (hy : ∀ row ∈ y, row.length = k1 ∧ ∀ v ∈ row, v.length = k2) :
    ∃ z, addTen3 x y = some z ∧ z.length = x.length ∧
      ∀ row ∈ z, row.length = k1 ∧ ∀ v ∈ row, v.length = k2 := by
  obtain ⟨z, hz, hlen, hP⟩ := mapM_length_forall (fun p => addMat p.1 p.2)
    (fun row => row.length = k1 ∧ ∀ v ∈ row, v.length = k2) (List.zip x y)
    (fun p hp => by
      obtain ⟨hp1, hp2⟩ := List.of_mem_zip hp
      obtain ⟨z', hz', hlen', hP'⟩ := addMat_uniform
        (((hx p.1 hp1).1).trans ((hy p.2 hp2).1).symm)
        (hx p.1 hp1).2 (hy p.2 hp2).2
      exact ⟨z', hz', hlen'.trans (hx p.1 hp1).1, hP'⟩)
  refine ⟨z, ?_, ?_, hP⟩
  · unfold addTen3
    rw [if_pos hxy, hz]
  · rw [hlen, List.length_zip, hxy, Nat.min_self]

theorem applyLinear_wf {l : LinearLayer} {inDim outDim : Nat} {x : List ℚ}
    (h : l.wf inDim outDim) (hx : x.length = inDim) :
    ∃ y, applyLinear l x = some y ∧ y.length = outDim := by
  obtain ⟨hw, hrows, hb⟩ := h
  refine ⟨List.zipWith (fun row b => dot row x + b) l.weight l.bias, ?_, ?_⟩
  · unfold applyLinear
    rw [if_pos ⟨List.all_eq_true.mpr (fun row hr => by
        simp [hrows row hr, hx]), hb.trans hw.symm⟩]
  · rw [List.length_zipWith, hw, hb, Nat.min_self]

theorem mapM_applyLinear {l : LinearLayer} {inDim outDim : Nat}
    {xs : List (List ℚ)} (h : l.wf inDim outDim)
    (hxs : ∀ v ∈ xs, v.length = inDim) :
    ∃ ys, xs.mapM (applyLinear l) = some ys ∧ ys.length = xs.length ∧
      ∀ y ∈ ys, y.length = outDim :=
  mapM_length_forall (applyLinear l) (fun y => y.length = outDim) xs
    (fun x hx => applyLinear_wf h (hxs x hx))

/-! ### Octo transformer (`OctoTransformer`) -/

/-- einops `(t d) -> t d`: the `t` consecutive chunks of length `d`. -/
def chunksN {α : Type} (t d : Nat) (xs : List α) : List (List α) :=
  (List.range t).map (fun i => (xs.drop (i * d)).take d)

/-- Weights of `OctoTransformer` (lines 518-545): the two projections, the
learned readout tokens `(n_obs_steps, n_readouts_per_step, embed_dim)` and
the two positional embeddings (leading broadcast batch axis dropped). -/
structure OctoTransformerM where
  state_proj : LinearLayer
  img_proj : LinearLayer
  readout_tokens : List (List (List ℚ))
  obs_pos_emb : List (List (List ℚ))
  readout_pos_emb : List (List (List ℚ))
  deriving DecidableEq

/-- Token assembly of `OctoTransformer.forward` (lines 568-586), one batch
row: project image and state features, prepend the state token to each
step's image tokens, add `obs_pos_emb`, add `readout_pos_emb` to the
readout tokens, append the readout tokens after each step's observation
tokens, and flatten the (step, token) axes into one sequence
(`rearrange "b t l f -> b (t l) f"`). -/
def assembleTokens (m : OctoTransformerM) (state : List (List ℚ))
    (imgFeats : List (List (List ℚ))) : Option (List (List ℚ)) := do
  let imgProj ← imgFeats.mapM (fun step => step.mapM (applyLinear m.img_proj))
  let stateProj ← state.mapM (applyLinear m.state_proj)
  let obsCat ←
    if stateProj.length = imgFeats.length
    then some (List.zipWith (fun sv iv => sv :: iv) stateProj imgProj)
    else none
  let obsTokens ← addTen3 obsCat m.obs_pos_emb
  let readoutTokens ← addTen3 m.readout_tokens m.readout_pos_emb
  let xcat ←
    if obsTokens.length = readoutTokens.length
    then some (List.zipWith (· ++ ·) obsTokens readoutTokens)
    else none
  some xcat.flatten

/-- Post-encoder extraction (lines 588-589): einops
`b (t l) f -> b t l f` with the given `t` (an error unless `t` divides the
sequence length), then the slice `[:, :, -n_readouts_per_step :, :]`. -/
def sliceReadouts (t r : Nat) (y : List (List ℚ)) :
    Option (List (List (List ℚ))) :=
  if t ∣ y.length
  then some ((chunksN t (y.length / t) y).map
    (fun blk => blk.drop (blk.length - r)))
  else none

/-- `OctoTransformer.forward` (lines 560-590) for one batch row.  The
`nn.TransformerEncoder` stack (an external torch module built of softmax
attention, GELU and LayerNorm) is the abstract parameter `enc`; it receives
the assembled sequence together with `make_causal_mask`'s output (line 587)
— the mask is baked into `enc` here since the stack is opaque. -/
def transformerForwardRow (enc : List (List ℚ) → List (List ℚ))
    (n_readouts_per_step : Nat) (m : OctoTransformerM) (state : List (List ℚ))
    (imgFeats : List (List (List ℚ))) : Option (List (List (List ℚ))) := do
  let flat ← assembleTokens m state imgFeats
  sliceReadouts imgFeats.length n_readouts_per_step (enc flat)

/-- Batched `OctoTransformer.forward`; the batch axes must agree. -/
def transformerForward (enc : List (List ℚ) → List (List ℚ))
    (n_readouts_per_step : Nat) (m : OctoTransformerM)
    (states : List (List (List ℚ))) (imgs : List (List (List (List ℚ)))) :
    Option (List (List (List (List ℚ)))) :=
  if states.length = imgs.length
  then (List.zip states imgs).mapM
    (fun p => transformerForwardRow enc n_readouts_per_step m p.1 p.2)
  else none

theorem mem_zipWith {α β γ : Type} {f : α → β → γ} {xs : List α} {ys : List β}
    {c : γ} (h : c ∈ List.zipWith f xs ys) :
    ∃ a b, a ∈ xs ∧ b ∈ ys ∧ c = f a b := by
  rw [zipWith_eq_map_zip] at h
  obtain ⟨p, hp, rfl⟩ := List.mem_map.mp h
  exact ⟨p.1, p.2, (List.of_mem_zip hp).1, (List.of_mem_zip hp).2, rfl⟩

theorem length_flatten_uniform {α : Type} {l : List (List α)} {L : Nat}
    (h : ∀ row ∈ l, row.length = L) : l.flatten.length = l.length * L := by
  induction l with
  | nil => simp
  | cons a l ih =>
    simp only [List.flatten_cons, List.length_append, List.length_cons,
      h a (List.mem_cons_self a l),
      ih (fun row hr => h row (List.mem_cons_of_mem _ hr)), Nat.succ_mul]
    omega

theorem assembleTokens_shape
    {m : OctoTransformerM} {state : List (List ℚ)}
    {imgFeats : List (List (List ℚ))} {t q r s_dim i_dim e : Nat}
    (hsp : m.state_proj.wf s_dim e) (hip : m.img_proj.wf i_dim e)
    (hstate : state.length = t) (hstate2 : ∀ v ∈ state, v.length = s_dim)
    (himg : imgFeats.length = t)
    (himg2 : ∀ step ∈ imgFeats, step.length = q ∧ ∀ v ∈ step, v.length = i_dim)
    (hobs : m.obs_pos_emb.length = t)
    (hobs2 : ∀ row ∈ m.obs_pos_emb, row.length = 1 + q ∧ ∀ v ∈ row, v.length = e)
    (hrt : m.readout_tokens.length = t)
    (hrt2 : ∀ row ∈ m.readout_tokens, row.length = r ∧ ∀ v ∈ row, v.length = e)
    (hrp : m.readout_pos_emb.length = t)
    (hrp2 : ∀ row ∈ m.readout_pos_emb, row.length = r ∧ ∀ v ∈ row, v.length = e) :
    ∃ flat, assembleTokens m state imgFeats = some flat ∧
      flat.length = t * (1 + q + r) ∧ ∀ v ∈ flat, v.length = e := by
  obtain ⟨imgProj, hi1, hi2, hi3⟩ := mapM_length_forall
    (fun step => step.mapM (applyLinear m.img_proj))
    (fun step' => step'.length = q ∧ ∀ v ∈ step', v.length = e) imgFeats
    (fun step hstep => by
      obtain ⟨ys, h1, h2, h3⟩ := mapM_applyLinear hip (himg2 step hstep).2
      exact ⟨ys, h1, h2.trans (himg2 step hstep).1, h3⟩)
  obtain ⟨stateProj, hs1, hs2, hs3⟩ := mapM_applyLinear hsp hstate2
  have hcat_len : (List.zipWith (fun sv iv => sv :: iv) stateProj imgProj).length = t := by
    rw [List.length_zipWith, hs2, hstate, hi2, himg, Nat.min_self]
  have hcat_shape : ∀ row ∈ List.zipWith (fun sv iv => sv :: iv) stateProj imgProj,
      row.length = 1 + q ∧ ∀ v ∈ row, v.length = e := by
    intro row hrow
    obtain ⟨sv, iv, hsv, hiv, rfl⟩ := mem_zipWith hrow
    refine ⟨by simp [(hi3 iv hiv).1, Nat.add_comm], ?_⟩
    intro v hv
    rcases List.mem_cons.mp hv with rfl | hv
    · exact hs3 _ hsv
    · exact (hi3 iv hiv).2 v hv
  obtain ⟨obsTokens, ho1, ho2, ho3⟩ := addTen3_uniform
    (hcat_len.trans hobs.symm) hcat_shape hobs2
  obtain ⟨roTokens, hr1, hr2, hr3⟩ := addTen3_uniform
    (hrt.trans hrp.symm) hrt2 hrp2
  have hx_len : (List.zipWith (· ++ ·) obsTokens roTokens).length = t := by
    rw [List.length_zipWith, ho2, hcat_len, hr2, hrt, Nat.min_self]
  have hx_shape : ∀ row ∈ List.zipWith (· ++ ·) obsTokens roTokens,
      row.length = 1 + q + r ∧ ∀ v ∈ row, v.length = e := by
    intro row hrow
    obtain ⟨a, b, ha, hb, rfl⟩ := mem_zipWith hrow
    refine ⟨by rw [List.length_append, (ho3 a ha).1, (hr3 b hb).1], ?_⟩
    intro v hv
    rcases List.mem_append.mp hv with hv | hv
    · exact (ho3 a ha).2 v hv
    · exact (hr3 b hb).2 v hv
  refine ⟨(List.zipWith (· ++ ·) obsTokens roTokens).flatten, ?_, ?_, ?_⟩
  · unfold assembleTokens
    rw [hi1, hs1]
    simp only [Option.bind_eq_bind, Option.some_bind]
    rw [if_pos (by rw [hs2, hstate, himg])]
    rw [ho1]
    simp only [Option.some_bind]
    rw [hr1]
    simp only [Option.some_bind]
    rw [if_pos (by rw [ho2, hcat_len, hr2, hrt])]
  · rw [length_flatten_uniform (fun row hr => (hx_shape row hr).1), hx_len]
  · intro v hv
    obtain ⟨row, hrow, hv⟩ := List.mem_flatten.mp hv
    exact (hx_shape row hrow).2 v hv

theorem sliceReadouts_eq {t r d : Nat} {y : List (List ℚ)} (ht : 0 < t)
    (hlen : y.length = t * d) (hr : r ≤ d) :
    sliceReadouts t r y =
      some ((List.range t).map
        (fun s => (y.drop (s * d + (d - r))).take r)) := by
  unfold sliceReadouts chunksN
  rw [if_pos ⟨d, hlen⟩, List.map_map]
  have hd : y.length / t = d := by rw [hlen, Nat.mul_div_cancel_left d ht]
  congr 1
  apply List.map_congr_left
  intro s hs
  rw [List.mem_range] at hs
  simp only [Function.comp_apply, hd]
  have hsd : s * d + d ≤ t * d := by
    have := Nat.mul_le_mul_right d hs
    rwa [Nat.succ_mul] at this
  have hblk : ((y.drop (s * d)).take d).length = d := by
    rw [List.length_take, List.length_drop, hlen]
    omega
  rw [hblk, List.drop_take, List.drop_drop, show d - (d - r) = r from by omega]

/-- C8: for `n_obs_steps = 2, n_readouts_per_step = 1,
n_obs_tokens_per_step = 38` (one state token plus 37 image-patch tokens),
the assembled flattened token sequence has length `78 = 2·(38 + 1)`
(matching `inputSeqLen` at line 499); and the readout embeddings returned by
the transformer are exactly the last `n_readouts_per_step` token embeddings
of each step's block of the encoder output — here tokens 38 and 77 of the
78-token encoder output — with the step/readout/embed structure preserved
and the batch axis mapped elementwise. -/
theorem claim_C8_readout_extraction
    {m : OctoTransformerM} {state : List (List ℚ)}
    {imgFeats : List (List (List ℚ))} {s_dim i_dim e : Nat}
    (enc : List (List ℚ) → List (List ℚ))
    (hsp : m.state_proj.wf s_dim e) (hip : m.img_proj.wf i_dim e)
    (hstate : state.length = 2) (hstate2 : ∀ v ∈ state, v.length = s_dim)
    (himg : imgFeats.length = 2)
    (himg2 : ∀ step ∈ imgFeats, step.length = 37 ∧ ∀ v ∈ step, v.length = i_dim)
    (hobs : m.obs_pos_emb.length = 2)
    (hobs2 : ∀ row ∈ m.obs_pos_emb, row.length = 38 ∧ ∀ v ∈ row, v.length = e)
    (hrt : m.readout_tokens.length = 2)
    (hrt2 : ∀ row ∈ m.readout_tokens, row.length = 1 ∧ ∀ v ∈ row, v.length = e)
    (hrp : m.readout_pos_emb.length = 2)
    (hrp2 : ∀ row ∈ m.readout_pos_emb, row.length = 1 ∧ ∀ v ∈ row, v.length = e)
    (henc : ∀ xs : List (List ℚ), (enc xs).length = xs.length) :
    (inputSeqLen 38 2 1 = 78) ∧
    (∃ flat, assembleTokens m state imgFeats = some flat ∧ flat.length = 78 ∧
      (∀ v ∈ flat, v.length = e) ∧
      transformerForwardRow enc 1 m state imgFeats =
        some [((enc flat).drop 38).take 1, ((enc flat).drop 77).take 1]) ∧
    (∀ t' r' d' (y : List (List ℚ)), 0 < t' → y.length = t' * d' → r' ≤ d' →
      sliceReadouts t' r' y =
        some ((List.range t').map (fun s => (y.drop (s * d' + (d' - r'))).take r'))) ∧
    (∀ (enc' : List (List ℚ) → List (List ℚ)) r' m' st' im',
      transformerForwardRow enc' r' m' st' im' =
        (assembleTokens m' st' im').bind
          (fun fl => sliceReadouts im'.length r' (enc' fl))) ∧
    (∀ (states : List (List (List ℚ))) (imgs : List (List (List (List ℚ)))),
      states.length = imgs.length →
      (∀ p ∈ List.zip states imgs,
        ∃ o, transformerForwardRow enc 1 m p.1 p.2 = some o) →
      ∃ out, transformerForward enc 1 m states imgs = some out ∧
        out.length = states.length) := by
  refine ⟨rfl, ?_, ?_, ?_, ?_⟩
  · obtain ⟨flat, h1, h2, h3⟩ := assembleTokens_shape (t := 2) (q := 37) (r := 1)
      hsp hip hstate hstate2 himg himg2 hobs hobs2 hrt hrt2 hrp hrp2
    refine ⟨flat, h1, h2, h3, ?_⟩
    unfold transformerForwardRow
    rw [h1]
    simp only [Option.bind_eq_bind, Option.some_bind]
    rw [himg, sliceReadouts_eq (d := 39) (by omega) (by rw [henc, h2]) (by omega)]
    rfl
  · intro t' r' d' y ht hlen hr
    exact sliceReadouts_eq ht hlen hr
  · intro enc' r' m' st' im'
    rfl
  · intro states imgs hlen hrows
    obtain ⟨out, hout, houtlen, -⟩ := mapM_length_forall
      (fun p => transformerForwardRow enc 1 m p.1 p.2) (fun _ => True)
      (List.zip states imgs)
      (fun p hp => by
        obtain ⟨o, ho⟩ := hrows p hp
        exact ⟨o, ho, trivial⟩)
    refine ⟨out, ?_, ?_⟩
    · unfold transformerForward
      rw [if_pos hlen, hout]
    · rw [houtlen, List.length_zip, hlen, Nat.min_self]

/-- Concrete transformer weights for the C8 witness (embed/state/img dims 1,
all zeros, 2 obs steps, 37 patches, 1 readout). -/
def c8M : OctoTransformerM :=
  ⟨zeroLinear 1 1, zeroLinear 1 1, List.replicate 2 [[0]],
    List.replicate 2 (List.replicate 38 [0]), List.replicate 2 [[0]]⟩

def c8State : List (List ℚ) := [[0], [0]]

def c8Img : List (List (List ℚ)) := List.replicate 2 (List.replicate 37 [0])

/-- Witness for C8 at the concrete all-zero instantiation with the identity
encoder stack. -/
theorem claim_C8_witness :
    ∃ flat, assembleTokens c8M c8State c8Img = some flat ∧ flat.length = 78 ∧
      transformerForwardRow id 1 c8M c8State c8Img =
        some [((id flat).drop 38).take 1, ((id flat).drop 77).take 1] := by
  obtain ⟨-, ⟨flat, h1, h2, -, h4⟩, -, -, -⟩ :=
    @claim_C8_readout_extraction c8M c8State c8Img 1 1 1 id
      (zeroLinear_wf 1 1) (zeroLinear_wf 1 1) rfl
      (by intro v hv; rcases List.mem_cons.mp hv with rfl | hv
          · rfl
          · rcases List.mem_cons.mp hv with rfl | hv
            · rfl
            · cases hv)
      (by simp [c8Img])
      (by intro step hs
          rw [List.eq_of_mem_replicate hs]
          refine ⟨by simp, ?_⟩
          intro v hv
          rw [List.eq_of_mem_replicate hv]
          rfl)
      (by simp [c8M])
      (by intro row hrow
          rw [List.eq_of_mem_replicate hrow]
          refine ⟨by simp, ?_⟩
          intro v hv
          rw [List.eq_of_mem_replicate hv]
          rfl)
      (by simp [c8M])
      (by intro row hrow
          rw [List.eq_of_mem_replicate hrow]
          refine ⟨rfl, ?_⟩
          intro v hv
          rcases List.mem_cons.mp hv with rfl | hv
          · rfl
          · cases hv)
      (by simp [c8M])
      (by intro row hrow
          rw [List.eq_of_mem_replicate hrow]
          refine ⟨rfl, ?_⟩
          intro v hv
          rcases List.mem_cons.mp hv with rfl | hv
          · rfl
          · cases hv)
      (fun xs => rfl)
  exact ⟨flat, h1, h2, h4⟩

/-! ### Denoising sampler (`OctoModel.conditional_sample`) -/

/-- The reverse-diffusion loop of `conditional_sample` (lines 268-274): for
each scheduler timestep, query the action head on the current flattened
sample, then apply the scheduler's single reverse step
(`noise_scheduler.step(...).prev_sample`).  The head and the external
scheduler are parameters; either may fail. -/
def denoiseLoop (head : ℤ → List (List ℚ) → Option (List (List ℚ)))
    (schedStep : List (List ℚ) → ℤ → List (List ℚ) → Option (List (List ℚ)))
    (timesteps : List ℤ) (sample0 : List (List ℚ)) : Option (List (List ℚ)) :=
  timesteps.foldlM (fun sample t => do
    let modelOut ← head t sample
    schedStep modelOut t sample) sample0

/-- `OctoModel.conditional_sample` (lines 251-277): the standard-normal
prior draw is the explicit input `noise` of shape
(batch, horizon, action_dim); it is flattened (`b t d -> b (t d)`), the
timestep schedule obtained from `set_timesteps` is the list `timesteps`,
the reverse loop runs, and the final sample is reshaped back
(`b (t d) -> b t d` with `t = horizon`, an error unless `horizon` divides
the flattened length). -/
def conditional_sample (horizon : Nat)
    (head : ℤ → List (List ℚ) → Option (List (List ℚ)))
    (schedStep : List (List ℚ) → ℤ → List (List ℚ) → Option (List (List ℚ)))
    (timesteps : List ℤ) (noise : List (List (List ℚ))) :
    Option (List (List (List ℚ))) := do
  let sF ← denoiseLoop head schedStep timesteps (noise.map List.flatten)
  sF.mapM (fun row =>
    if horizon ∣ row.length
    then some (chunksN horizon (row.length / horizon) row)
    else none)

theorem chunksN_flatten {α : Type} : ∀ (ls : List (List α)) (d : Nat),
    (∀ x ∈ ls, x.length = d) → chunksN ls.length d ls.flatten = ls
  | [], _, _ => rfl
  | a :: ls, d, h => by
    have ha : a.length = d := h a (List.mem_cons_self a ls)
    have ih := chunksN_flatten ls d (fun x hx => h x (List.mem_cons_of_mem _ hx))
    unfold chunksN at ih ⊢
    rw [List.length_cons, List.flatten_cons, List.range_succ_eq_map, List.map_cons]
    congr 1
    · rw [Nat.zero_mul, List.drop_zero, ← ha, List.take_left]
    · rw [List.map_map]
      refine Eq.trans (List.map_congr_left ?_) ih
      intro i hi
      simp only [Function.comp_apply]
      congr 1
      rw [Nat.succ_mul, Nat.add_comm, ← ha, List.drop_append]

theorem mapM_map_eq_some {α β : Type} (g : β → Option α) (f : α → β) :
    ∀ (l : List α), (∀ x ∈ l, g (f x) = some x) → (l.map f).mapM g = some l
  | [], _ => rfl
  | a :: l, h => by
    rw [List.map_cons, List.mapM_cons, h a (List.mem_cons_self a l),
      mapM_map_eq_some g f l (fun x hx => h x (List.mem_cons_of_mem _ hx))]
    rfl

theorem chunksN_shape {α : Type} {t d : Nat} {xs : List α}
    (hlen : xs.length = t * d) :
    (chunksN t d xs).length = t ∧ ∀ blk ∈ chunksN t d xs, blk.length = d := by
  constructor
  · simp [chunksN]
  · intro blk hblk
    obtain ⟨i, hi, rfl⟩ := List.mem_map.mp hblk
    rw [List.mem_range] at hi
    rw [List.length_take, List.length_drop, hlen]
    have : i * d + d ≤ t * d := by
      have := Nat.mul_le_mul_right d hi
      rwa [Nat.succ_mul] at this
    omega

/-- C7: with an inference step count of 1 (a one-element timestep schedule)
and a scheduler whose single reverse step returns its current sample
unchanged, the sampler returns the initial standard-normal draw unchanged in
value, reshaped to (batch, horizon, action_dim) — i.e. exactly `noise`
back; and in general, whenever the reverse loop finishes, its final sample
is reshaped to (batch, horizon, action_dim) and returned as the predicted
clean trajectory. -/
theorem claim_C7_conditional_sample {horizon action_dim : Nat}
    (head : ℤ → List (List ℚ) → Option (List (List ℚ)))
    (schedStep : List (List ℚ) → ℤ → List (List ℚ) → Option (List (List ℚ)))
    (t0 : ℤ) (noise : List (List (List ℚ)))
    (hhead : ∀ t s, ∃ o, head t s = some o)
    (hstep : ∀ m t s, schedStep m t s = some s)
    (hnoise : ∀ row ∈ noise, row.length = horizon ∧ ∀ v ∈ row, v.length = action_dim)
    (hh : 0 < horizon) :
    (conditional_sample horizon head schedStep [t0] noise = some noise) ∧
    (∀ (timesteps : List ℤ) (noise' : List (List (List ℚ)))
        (sF : List (List ℚ)),
      denoiseLoop head schedStep timesteps (noise'.map List.flatten) = some sF →
      (∀ row ∈ sF, row.length = horizon * action_dim) →
      ∃ out, conditional_sample horizon head schedStep timesteps noise' = some out ∧
        out.length = sF.length ∧
        ∀ r ∈ out, r.length = horizon ∧ ∀ blk ∈ r, blk.length = action_dim) := by
  have reshape_ok : ∀ (row : List ℚ), row.length = horizon * action_dim →
      (if horizon ∣ row.length
       then some (chunksN horizon (row.length / horizon) row)
       else none) =
        some (chunksN horizon action_dim row) := by
    intro row hrow
    rw [if_pos ⟨action_dim, hrow⟩, hrow, Nat.mul_div_cancel_left action_dim hh]
  constructor
  · have hloop : denoiseLoop head schedStep [t0] (noise.map List.flatten) =
        some (noise.map List.flatten) := by
      unfold denoiseLoop
      obtain ⟨o, ho⟩ := hhead t0 (noise.map List.flatten)
      simp [List.foldlM, ho, hstep]
    unfold conditional_sample
    rw [hloop]
    simp only [Option.bind_eq_bind, Option.some_bind]
    apply mapM_map_eq_some
    intro row hrow
    have hlen : row.flatten.length = horizon * action_dim := by
      rw [length_flatten_uniform (hnoise row hrow).2, (hnoise row hrow).1]
    rw [reshape_ok row.flatten hlen, ← (hnoise row hrow).1,
      chunksN_flatten row action_dim (hnoise row hrow).2]
  · intro timesteps noise' sF hloop hsF
    obtain ⟨out, hout, hlen, hP⟩ := mapM_length_forall
      (fun row =>
        if horizon ∣ row.length
        then some (chunksN horizon (row.length / horizon) row)
        else none)
      (fun r => r.length = horizon ∧ ∀ blk ∈ r, blk.length = action_dim) sF
      (fun row hrow => by
        refine ⟨chunksN horizon action_dim row, reshape_ok row (hsF row hrow), ?_⟩
        have := chunksN_shape (t := horizon) (d := action_dim) (hsF row hrow)
        exact this)
    refine ⟨out, ?_, hlen, hP⟩
    unfold conditional_sample
    rw [hloop]
    simp only [Option.bind_eq_bind, Option.some_bind]
    exact hout

/-- Witness for C7: a batch of one trajectory with `horizon = 2`,
`action_dim = 1`, schedule `[5]`, an identity scheduler step and a head that
echoes its sample. -/
theorem claim_C7_witness :
    conditional_sample 2 (fun _ s => some s) (fun _ _ s => some s) [5]
      [[[1], [2]]] = some [[[1], [2]]] :=
  (@claim_C7_conditional_sample 2 1 (fun _ s => some s)
    (fun _ _ s => some s) 5 [[[1], [2]]]
    (fun t s => ⟨s, rfl⟩) (fun m t s => rfl) (by decide) (by decide)).1

/-! ### Training loss (`OctoModel.compute_loss`) -/

/-- Configuration fields of `OctoConfig` used by this embedding. -/
structure OctoCfg where
  n_obs_steps : Nat
  horizon : Nat
  n_action_steps : Nat
  n_readouts_per_step : Nat
  prediction_type : String
  noise_scheduler_type : String
  do_mask_loss_for_padding : Bool
  num_train_timesteps : Nat
  beta_start : ℚ
  beta_end : ℚ
  beta_schedule : String
  clip_sample : Bool
  clip_sample_range : ℚ
  image_keys : List String
  deriving DecidableEq

/-- A training batch (`compute_loss` docstring, lines 310-318); images are
opaque values of type `ι`.  The one key that may be absent from the Python
dict in the claims is `Option`-valued. -/
structure LossBatch (ι : Type) where
  state : List (List (List ℚ))
  image : List (List ι)
  action : List (List (List ℚ))
  action_is_pad : Option (List (List Bool))

/-- `F.mse_loss(pred, target, reduction="none")` on one action vector. -/
def sqErrVec (x y : List ℚ) : Option (List ℚ) :=
  if x.length = y.length
  then some (List.zipWith (fun a b => (a - b) * (a - b)) x y)
  else none

/-- Elementwise squared error on one (horizon, action_dim) slice. -/
def sqErrMat (x y : List (List ℚ)) : Option (List (List ℚ)) :=
  if x.length = y.length
  then (List.zip x y).mapM (fun p => sqErrVec p.1 p.2)
  else none

/-- Elementwise squared error on (batch, horizon, action_dim) tensors
(line 361); shape mismatch is an error. -/
def mseElementwise (x y : List (List (List ℚ))) :
    Option (List (List (List ℚ))) :=
  if x.length = y.length
  then (List.zip x y).mapM (fun p => sqErrMat p.1 p.2)
  else none

/-- `loss * in_episode_bound.unsqueeze(-1)` with
`in_episode_bound = ~action_is_pad` (lines 365-366): every element of
`loss[b][t]` is multiplied by 0 where padded and by 1 where in-episode. -/
def padMul (lvec : List ℚ) (b : Bool) : List ℚ :=
  lvec.map (fun q => q * (if b then 0 else 1))

def applyPadMask (loss : List (List (List ℚ))) (pad : List (List Bool)) :
    Option (List (List (List ℚ))) :=
  if loss.length = pad.length
  then (List.zip loss pad).mapM (fun p =>
    if p.1.length = p.2.length
    then some (List.zipWith padMul p.1 p.2)
    else none)
  else none

/-- Total element count of a (batch, horizon, action_dim) tensor. -/
def numel3 (x : List (List (List ℚ))) : Nat :=
  (x.map (fun r => (r.map List.length).sum)).sum

/-- Sum of all elements of a (batch, horizon, action_dim) tensor. -/
def sum3 (x : List (List (List ℚ))) : ℚ :=
  (x.map (fun r => (r.map List.sum).sum)).sum

/-- `loss.mean()`: the mean over every element of the tensor (`NaN` — an
error here — on an empty tensor). -/
def mean3 (x : List (List (List ℚ))) : Option ℚ :=
  if numel3 x = 0 then none else some (sum3 x / (numel3 x : ℚ))

/-- Lines 363-368 of `compute_loss`: multiply in the padding mask when
`do_mask_loss_for_padding` is set and the key is present, then
`loss.mean()`. -/
def lossAggregate (do_mask : Bool) (pad : Option (List (List Bool)))
    (loss : List (List (List ℚ))) : Option ℚ := do
  let masked ←
    match do_mask, pad with
    | true, some p => applyPadMask loss p
    | _, _ => some loss
  mean3 masked

/-- `OctoModel.compute_loss` (lines 309-368).  External collaborators are
parameters: `rgbEnc` (vision backbone, producing each image's flattened
patch-feature list after the two `rearrange`s of lines 327-329), `enc` (the
torch transformer-encoder stack), `addNoise` (the external scheduler's
`add_noise`, line 346), the transcendental primitives, and the sampled
randomness: `eps` (line 337) and `timesteps` (lines 339-344, one integer
per batch element, already cast to ℚ for the head).  The in-repo modules —
the `OctoTransformer` weights `tr` and the `OctoDiffusionActionHead`
weights `head` — are the embeddings above.  The `assert`s of lines 320-324
and all tensor shape errors yield `none`. -/
def computeLoss {ι : Type} (cfg : OctoCfg) (rgbEnc : ι → List (List ℚ))
    (enc : List (List ℚ) → List (List ℚ)) (act cosF sinF : ℚ → ℚ)
    (ln : List ℚ → List ℚ) (twoPi : ℚ) (tr : OctoTransformerM)
    (head : DiffusionActionHead)
    (addNoise : List (List (List ℚ)) → List (List (List ℚ)) → List ℚ →
      Option (List (List (List ℚ))))
    (eps : List (List (List ℚ))) (timesteps : List ℚ)
    (batch : LossBatch ι) : Option ℚ := do
  let _ ← batch.action_is_pad
  if (∀ row ∈ batch.action, row.length = cfg.horizon) ∧
     (∀ row ∈ batch.state, row.length = cfg.n_obs_steps)
  then
    let imgFeats := batch.image.map (fun row => row.map rgbEnc)
    let embeds ← transformerForward enc cfg.n_readouts_per_step tr
      batch.state imgFeats
    let trajectory := batch.action
    let noisy ← addNoise trajectory eps timesteps
    let pred ← headForward act cosF sinF ln twoPi head embeds timesteps
      (noisy.map List.flatten)
    let pred3 ← pred.mapM (fun row =>
      if cfg.horizon ∣ row.length
      then some (chunksN cfg.horizon (row.length / cfg.horizon) row)
      else none)
    let target ←
      if cfg.prediction_type = "epsilon" then some eps
      else if cfg.prediction_type = "sample" then some batch.action
      else none
    let loss ← mseElementwise pred3 target
    lossAggregate cfg.do_mask_loss_for_padding batch.action_is_pad loss
  else none

/-- The aggregation in the words of the spec/claim C4: zero the padded
positions and take the mean over all REMAINING (non-padded) elements —
the denominator counts only non-padded elements. -/
def specMeanOverRemaining (pad : List (List Bool))
    (loss : List (List (List ℚ))) : Option ℚ :=
  mean3 ((List.zip loss pad).map (fun p =>
    (List.zip p.1 p.2).filterMap (fun q => if q.2 then none else some q.1)))

/-- Sum of the squared errors with padded positions zeroed out. -/
def maskedSum (loss : List (List (List ℚ))) (pad : List (List Bool)) : ℚ :=
  ((List.zip loss pad).map (fun p =>
    ((List.zip p.1 p.2).map (fun q => if q.2 then 0 else q.1.sum)).sum)).sum

def c4Cfg : OctoCfg :=
  ⟨1, 1, 1, 1, "sample", "DDPM", true, 100, 0, 0, "squaredcos_cap_v2",
    true, 1, ["observation.image"]⟩

def c4Tr : OctoTransformerM :=
  ⟨zeroLinear 1 1, zeroLinear 1 1, [[[0]]], [[[0], [0]]], [[[0]]]⟩

/-- Head per `__init__` for `time_dim = 2, embed_dim = 1, action_dim = 1,
horizon = 1, diffusion_head_dim = 1, 0 blocks`; all weights zero except the
output bias, so the prediction is the constant 2. -/
def c4Head : DiffusionActionHead :=
  ⟨⟨[[0]]⟩, [zeroLinear 2 4, zeroLinear 4 2],
    ⟨zeroLinear 4 1, [], ⟨[[0]], [2]⟩⟩⟩

/-- Batch of two single-step trajectories, the second flagged as padding. -/
def c4Batch : LossBatch Unit :=
  ⟨[[[0]], [[0]]], [[()], [()]], [[[0]], [[-8]]], some [[false], [true]]⟩

/-- C4 (counterexample): at this concrete training batch the prediction is
constantly 2, so the elementwise squared errors are `[[4]], [[100]]` with
the second element padded; `compute_loss` returns `(4 + 0) / 2 = 2` — the
masked sum divided by the TOTAL element count — whereas the claim's "mean
over all remaining (non-padded) elements" is `4 / 1 = 4 ≠ 2`. -/
theorem claim_C4_counterexample :
    computeLoss c4Cfg (fun _ : Unit => [[0]]) id id id id id 0 c4Tr c4Head
      (fun traj _ _ => some traj) [[[0]], [[0]]] [0, 0] c4Batch = some 2 ∧
    mseElementwise [[[2]], [[2]]] c4Batch.action = some [[[4]], [[100]]] ∧
    specMeanOverRemaining [[false], [true]] [[[4]], [[100]]] = some 4 ∧
    (2 : ℚ) ≠ 4 := by
  refine ⟨by with_unfolding_all rfl, by with_unfolding_all rfl,
    by with_unfolding_all rfl, by norm_num⟩

theorem mapM_eq_map_of_some {α β : Type} (f : α → Option β) (g : α → β) :
    ∀ (l : List α), (∀ x ∈ l, f x = some (g x)) → l.mapM f = some (l.map g)
  | [], _ => rfl
  | a :: l, h => by
    rw [List.mapM_cons, h a (List.mem_cons_self a l),
      mapM_eq_map_of_some f g l (fun x hx => h x (List.mem_cons_of_mem _ hx))]
    rfl

theorem padMul_length (lvec : List ℚ) (b : Bool) :
    (padMul lvec b).length = lvec.length := by
  simp [padMul]

theorem padMul_sum (lvec : List ℚ) (b : Bool) :
    (padMul lvec b).sum = if b then 0 else lvec.sum := by
  cases b <;> simp [padMul, mul_zero, mul_one]

/-- C4 (amended): when a padding mask is supplied (and
`do_mask_loss_for_padding` is set), the elementwise squared error at
positions flagged as padding is zeroed out, and the returned loss is the sum
of the remaining (non-padded) elements divided by the TOTAL element count —
the mean over the full zeroed tensor, not over only the non-padded
elements. -/
theorem claim_C4_mask_mean (loss : List (List (List ℚ))) (pad : List (List Bool))
    (hlen : loss.length = pad.length)
    (hrows : ∀ p ∈ List.zip loss pad, p.1.length = p.2.length)
    (hne : numel3 loss ≠ 0) :
    (∀ lvec b, padMul lvec b = if b then lvec.map (fun _ => 0) else lvec) ∧
    lossAggregate true (some pad) loss =
      some (maskedSum loss pad / (numel3 loss : ℚ)) := by
  constructor
  · intro lvec b
    cases b
    · simp [padMul, mul_one]
    · simp [padMul, mul_zero]
  have hmask : applyPadMask loss pad =
      some ((List.zip loss pad).map (fun p => List.zipWith padMul p.1 p.2)) := by
    unfold applyPadMask
    rw [if_pos hlen]
    exact mapM_eq_map_of_some _ _ _ (fun p hp => by rw [if_pos (hrows p hp)])
  have hnumel : numel3 ((List.zip loss pad).map
      (fun p => List.zipWith padMul p.1 p.2)) = numel3 loss := by
    unfold numel3
    rw [List.map_map]
    have h1 : ∀ p ∈ List.zip loss pad,
        (((List.zipWith padMul p.1 p.2).map List.length).sum : Nat) =
          (p.1.map List.length).sum := by
      intro p hp
      rw [zipWith_eq_map_zip, List.map_map]
      have h2 : ∀ q ∈ List.zip p.1 p.2,
          (List.length ∘ fun q : List ℚ × Bool => padMul q.1 q.2) q =
            (List.length ∘ Prod.fst) q := by
        intro q _
        simp [padMul_length]
      rw [List.map_congr_left h2, ← List.map_map,
        List.map_fst_zip p.1 p.2 (le_of_eq (hrows p hp))]
    rw [List.map_congr_left (fun p hp => by
      simp only [Function.comp_apply]
      exact h1 p hp)]
    rw [show (fun p : List (List ℚ) × List Bool => (p.1.map List.length).sum) =
        ((fun r : List (List ℚ) => (r.map List.length).sum) ∘ Prod.fst) from rfl,
      ← List.map_map, List.map_fst_zip loss pad (le_of_eq hlen)]
  have hsum : sum3 ((List.zip loss pad).map
      (fun p => List.zipWith padMul p.1 p.2)) = maskedSum loss pad := by
    unfold sum3 maskedSum
    rw [List.map_map]
    congr 1
    apply List.map_congr_left
    intro p _
    simp only [Function.comp_apply]
    rw [zipWith_eq_map_zip, List.map_map]
    congr 1
    apply List.map_congr_left
    intro q _
    simp only [Function.comp_apply]
    exact padMul_sum q.1 q.2
  show (applyPadMask loss pad).bind (fun masked => mean3 masked) =
    some (maskedSum loss pad / (numel3 loss : ℚ))
  rw [hmask]
  show mean3 (List.map (fun p => List.zipWith padMul p.1 p.2) (loss.zip pad)) = _
  unfold mean3
  rw [if_neg (by rw [hnumel]; exact hne), hnumel, hsum]

/-- Witness for the amended C4 at the counterexample tensor: the masked sum
is 4, the total element count 2, and the returned loss `4 / 2 = 2`. -/
theorem claim_C4_mask_mean_witness :
    lossAggregate true (some [[false], [true]]) [[[4]], [[100]]] =
      some (maskedSum [[[4]], [[100]]] [[false], [true]] /
        (numel3 [[[4]], [[100]]] : ℚ)) :=
  (claim_C4_mask_mean [[[4]], [[100]]] [[false], [true]] (by decide)
    (by decide) (by decide)).2

/-- The C4 batch with the `action_is_pad` key removed. -/
def c5Batch : LossBatch Unit :=
  ⟨[[[0]], [[0]]], [[()], [()]], [[[0]], [[-8]]], none⟩

/-- C5 (counterexample): a batch whose only defect is the missing
`action_is_pad` key is rejected with an error (the input-validation
`assert` at line 320), not tolerated: the same tensors train fine once the
key is added back. -/
theorem claim_C5_counterexample :
    c5Batch.action_is_pad = none ∧
    computeLoss c4Cfg (fun _ : Unit => [[0]]) id id id id id 0 c4Tr c4Head
      (fun traj _ _ => some traj) [[[0]], [[0]]] [0, 0] c5Batch = none ∧
    computeLoss c4Cfg (fun _ : Unit => [[0]]) id id id id id 0 c4Tr c4Head
      (fun traj _ _ => some traj) [[[0]], [[0]]] [0, 0]
      { c5Batch with action_is_pad := some [[false], [true]] } = some 2 := by
  refine ⟨rfl, rfl, by with_unfolding_all rfl⟩

/-- C5 (amended): a training batch lacking the action-padding-mask field is
NOT tolerated: `compute_loss` fails its input-validation assertion
(line 320: `assert set(batch).issuperset({..., "action_is_pad"})`) before
any loss is computed, even though the masking guard at line 364 would by
itself tolerate absence. -/
theorem claim_C5_missing_pad_asserts {ι : Type} (cfg : OctoCfg)
    (rgbEnc : ι → List (List ℚ)) (enc : List (List ℚ) → List (List ℚ))
    (act cosF sinF : ℚ → ℚ) (ln : List ℚ → List ℚ) (twoPi : ℚ)
    (tr : OctoTransformerM) (head : DiffusionActionHead)
    (addNoise : List (List (List ℚ)) → List (List (List ℚ)) → List ℚ →
      Option (List (List (List ℚ))))
    (eps : List (List (List ℚ))) (timesteps : List ℚ) (batch : LossBatch ι)
    (hpad : batch.action_is_pad = none) :
    computeLoss cfg rgbEnc enc act cosF sinF ln twoPi tr head addNoise
      eps timesteps batch = none := by
  unfold computeLoss
  rw [hpad]
  rfl

/-- Witness for the amended C5 at the concrete batch without the key. -/
theorem claim_C5_missing_pad_asserts_witness :
    computeLoss c4Cfg (fun _ : Unit => [[0]]) id id id id id 0 c4Tr c4Head
      (fun traj _ _ => some traj) [[[0]], [[0]]] [0, 0] c5Batch = none :=
  claim_C5_missing_pad_asserts c4Cfg (fun _ : Unit => [[0]]) id id id id id 0
    c4Tr c4Head (fun traj _ _ => some traj) [[[0]], [[0]]] [0, 0] c5Batch rfl

/-! ### Construction (`_make_noise_scheduler`, `OctoModel.__init__`,
`OctoConfig` validation, `OctoPolicy.__init__`) -/

/-- The scheduler kwargs forwarded by `OctoModel.__init__` (lines 235-244). -/
structure SchedKwargs where
  num_train_timesteps : Nat
  beta_start : ℚ
  beta_end : ℚ
  beta_schedule : String
  clip_sample : Bool
  clip_sample_range : ℚ
  prediction_type : String
  deriving DecidableEq

/-- Modelled from the spec: the external `diffusers` scheduler constructors
(`DDPMScheduler`, `DDIMScheduler`).  Spec §6 treats the noise scheduler as
an external collaborator specified only at its four-operation interface and
names no construction-time failure for these kwargs; the constructor simply
stores the configuration.  (Unknown scheduler *names* are rejected by
`_make_noise_scheduler` itself, in `src/`.) -/
inductive NoiseScheduler where
  | ddpm (kwargs : SchedKwargs)
  | ddim (kwargs : SchedKwargs)
  deriving DecidableEq

/-- `_make_noise_scheduler` (lines 155-165): factory by name; unknown names
raise `ValueError`. -/
def make_noise_scheduler (name : String) (kwargs : SchedKwargs) :
    Option NoiseScheduler :=
  if name = "DDPM" then some (NoiseScheduler.ddpm kwargs)
  else if name = "DDIM" then some (NoiseScheduler.ddim kwargs)
  else none

def schedKwargsOf (cfg : OctoCfg) : SchedKwargs :=
  ⟨cfg.num_train_timesteps, cfg.beta_start, cfg.beta_end, cfg.beta_schedule,
    cfg.clip_sample, cfg.clip_sample_range, cfg.prediction_type⟩

/-- The state built by `OctoModel.__init__` (lines 169-249): the module
weights (parameters here) and the noise scheduler. -/
structure OctoModelS where
  tr : OctoTransformerM
  head : DiffusionActionHead
  scheduler : NoiseScheduler
  deriving DecidableEq

/-- `OctoModel.__init__`: the only fallible step embedded from `src/` is the
scheduler factory call (lines 235-244). -/
def mkOctoModel (cfg : OctoCfg) (tr : OctoTransformerM)
    (head : DiffusionActionHead) : Option OctoModelS :=
  (make_noise_scheduler cfg.noise_scheduler_type (schedKwargsOf cfg)).map
    (fun s => ⟨tr, head, s⟩)

/-- Modelled from the spec: `OctoConfig` post-init validation
(`configuration_octo.py`, imported at line 41 but not under `src/`; the
comment at line 89 notes the image-key check "is covered in the post-init
of the config").  Spec §7 lists the configuration-time fatal errors: an
unsupported scheduler name, an unsupported prediction type (supported set
§3/§4.5: `epsilon`, `sample`), more than one image field, and an invalid
`n_action_steps`/`horizon`/`n_obs_steps` relationship
(§3/§8: `n_action_steps < horizon - n_obs_steps + 1`). -/
def mkOctoConfig (cfg : OctoCfg) : Option OctoCfg :=
  if ((cfg.n_action_steps : ℤ) < (cfg.horizon : ℤ) - (cfg.n_obs_steps : ℤ) + 1) ∧
     (cfg.prediction_type = "epsilon" ∨ cfg.prediction_type = "sample") ∧
     (cfg.noise_scheduler_type = "DDPM" ∨ cfg.noise_scheduler_type = "DDIM") ∧
     cfg.image_keys.length = 1
  then some cfg else none

/-- A constructed `OctoPolicy` object. -/
structure OctoPolicyS (α β : Type) where
  config : OctoCfg
  model : OctoModelS
  input_image_key : String
  queues : Queues α β

/-- `OctoPolicy.__init__` (lines 57-96) from a raw (unvalidated)
configuration: config post-init validation (modelled from the spec, above),
model construction, the image-key sanity check of lines 88-93, and the
final `reset()` (line 96) that empties the queues. -/
def mkOctoPolicy (α β : Type) (cfg : OctoCfg) (tr : OctoTransformerM)
    (head : DiffusionActionHead) : Option (OctoPolicyS α β) := do
  let config ← mkOctoConfig cfg
  let model ← mkOctoModel config tr head
  if config.image_keys.length = 1
  then some ⟨config, model, config.image_keys.headI, resetQueues α β⟩
  else none

/-- C9: for every configuration with
`n_action_steps ≥ horizon - n_obs_steps + 1`, constructing the policy fails
at construction time (the spec-modelled config post-init rejects it), so no
policy object exists to fail later at the first `select_action` call. -/
theorem claim_C9_invalid_construction (cfg : OctoCfg) (tr : OctoTransformerM)
    (head : DiffusionActionHead)
    (hbad : (cfg.horizon : ℤ) - (cfg.n_obs_steps : ℤ) + 1 ≤ (cfg.n_action_steps : ℤ)) :
    mkOctoConfig cfg = none ∧
    mkOctoPolicy Unit Unit cfg tr head = none := by
  have hcfg : mkOctoConfig cfg = none := by
    unfold mkOctoConfig
    rw [if_neg (fun h => absurd h.1 (by omega))]
  refine ⟨hcfg, ?_⟩
  unfold mkOctoPolicy
  rw [hcfg]
  rfl

/-- A configuration violating `n_action_steps < horizon - n_obs_steps + 1`
(here `7 ≥ 8 - 2 + 1`). -/
def c9Cfg : OctoCfg :=
  ⟨2, 8, 7, 1, "epsilon", "DDPM", true, 100, 0, 0, "squaredcos_cap_v2",
    true, 1, ["observation.image"]⟩

/-- Witness for C9 at the concrete invalid configuration. -/
theorem claim_C9_witness :
    mkOctoConfig c9Cfg = none ∧
    mkOctoPolicy Unit Unit c9Cfg c4Tr c4Head = none :=
  claim_C9_invalid_construction c9Cfg c4Tr c4Head (by decide)

/-- C6: constructing a policy with an unsupported noise-scheduler name or an
unsupported prediction type fails at construction, not at first call: the
config post-init (modelled from the spec) rejects both, and for scheduler
names `src`'s own `_make_noise_scheduler` (lines 155-165) independently
raises during model construction.  The last conjunct shows `compute_loss`'s
own prediction-type guard (lines 354-359), the place the error would
otherwise first surface. -/
theorem claim_C6_construction_validation :
    (∀ (name : String) (kwargs : SchedKwargs), name ≠ "DDPM" → name ≠ "DDIM" →
      make_noise_scheduler name kwargs = none) ∧
    (∀ (cfg : OctoCfg) (tr : OctoTransformerM) (head : DiffusionActionHead),
      cfg.prediction_type ≠ "epsilon" → cfg.prediction_type ≠ "sample" →
      mkOctoConfig cfg = none ∧ mkOctoPolicy Unit Unit cfg tr head = none) ∧
    (∀ (cfg : OctoCfg) (tr : OctoTransformerM) (head : DiffusionActionHead),
      cfg.noise_scheduler_type ≠ "DDPM" → cfg.noise_scheduler_type ≠ "DDIM" →
      mkOctoConfig cfg = none ∧ mkOctoPolicy Unit Unit cfg tr head = none) ∧
    (computeLoss { c4Cfg with prediction_type := "v_prediction" }
      (fun _ : Unit => [[0]]) id id id id id 0 c4Tr c4Head
      (fun traj _ _ => some traj) [[[0]], [[0]]] [0, 0] c4Batch = none) := by
  refine ⟨?_, ?_, ?_, by with_unfolding_all rfl⟩
  · intro name kwargs h1 h2
    unfold make_noise_scheduler
    rw [if_neg h1, if_neg h2]
  · intro cfg tr head h1 h2
    have hcfg : mkOctoConfig cfg = none := by
      unfold mkOctoConfig
      rw [if_neg (fun h => h.2.1.elim h1 h2)]
    refine ⟨hcfg, ?_⟩
    unfold mkOctoPolicy
    rw [hcfg]
    rfl
  · intro cfg tr head h1 h2
    have hcfg : mkOctoConfig cfg = none := by
      unfold mkOctoConfig
      rw [if_neg (fun h => h.2.2.1.elim h1 h2)]
    refine ⟨hcfg, ?_⟩
    unfold mkOctoPolicy
    rw [hcfg]
    rfl

def c6Kwargs : SchedKwargs := ⟨100, 0, 0, "squaredcos_cap_v2", true, 1, "foo"⟩

def c6CfgPred : OctoCfg := { c4Cfg with prediction_type := "foo" }

def c6CfgSched : OctoCfg := { c4Cfg with noise_scheduler_type := "PNDM" }

/-- Witness for C6 at concrete unsupported names. -/
theorem claim_C6_witness :
    make_noise_scheduler "SDE" c6Kwargs = none ∧
    mkOctoPolicy Unit Unit c6CfgPred c4Tr c4Head = none ∧
    mkOctoPolicy Unit Unit c6CfgSched c4Tr c4Head = none :=
  ⟨claim_C6_construction_validation.1 "SDE" c6Kwargs (by decide) (by decide),
   (claim_C6_construction_validation.2.1 c6CfgPred c4Tr c4Head (by decide)
     (by decide)).2,
   (claim_C6_construction_validation.2.2.1 c6CfgSched c4Tr c4Head (by decide)
     (by decide)).2⟩

/-! ### Training entry point (`OctoPolicy.forward`) -/

/-- `OctoPolicy.forward` (lines 146-152): normalise inputs, select the image
key, normalise targets, compute the loss — the body contains no statement
touching `self._queues`, so the policy object (in particular its queue
state) passes through unchanged. -/
def forwardP {α β ι : Type} (p : OctoPolicyS α β)
    (normIn normTgt : LossBatch ι → LossBatch ι)
    (rgbEnc : ι → List (List ℚ)) (enc : List (List ℚ) → List (List ℚ))
    (act cosF sinF : ℚ → ℚ) (ln : List ℚ → List ℚ) (twoPi : ℚ)
    (addNoise : List (List (List ℚ)) → List (List (List ℚ)) → List ℚ →
      Option (List (List (List ℚ))))
    (eps : List (List (List ℚ))) (timesteps : List ℚ) (batch : LossBatch ι) :
    Option ℚ × OctoPolicyS α β :=
  (computeLoss p.config rgbEnc enc act cosF sinF ln twoPi p.model.tr
    p.model.head addNoise eps timesteps (normTgt (normIn batch)), p)

/-- C10: the training entry point never touches the controller's queue
state: for every batch, `forward` leaves the observation-image,
observation-state and action queues exactly as they were, so a subsequent
`select_action` behaves identically whether or not training calls were
interleaved. -/
theorem claim_C10_forward_frame {α β ι : Type} (p : OctoPolicyS α β)
    (normIn normTgt : LossBatch ι → LossBatch ι)
    (rgbEnc : ι → List (List ℚ)) (enc : List (List ℚ) → List (List ℚ))
    (act cosF sinF : ℚ → ℚ) (ln : List ℚ → List ℚ) (twoPi : ℚ)
    (addNoise : List (List (List ℚ)) → List (List (List ℚ)) → List ℚ →
      Option (List (List (List ℚ))))
    (eps : List (List (List ℚ))) (timesteps : List ℚ) (batch : LossBatch ι)
    (cfgC : CtrlCfg) (normalize : β → β) (unnormalize : List α → List α)
    (model : List β → List β → List α) (obsI obsS : β) :
    ((forwardP p normIn normTgt rgbEnc enc act cosF sinF ln twoPi addNoise
        eps timesteps batch).2 = p) ∧
    ((forwardP p normIn normTgt rgbEnc enc act cosF sinF ln twoPi addNoise
        eps timesteps batch).2.queues = p.queues) ∧
    (selectAction cfgC normalize unnormalize model
        (forwardP p normIn normTgt rgbEnc enc act cosF sinF ln twoPi addNoise
          eps timesteps batch).2.queues obsI obsS =
      selectAction cfgC normalize unnormalize model p.queues obsI obsS) :=
  ⟨rfl, rfl, rfl⟩
